import Mathlib

/-!
Formal model of the CanvasMultiCurl request engine (src/CanvasMultiCurl.js).

The JavaScript source is shallowly embedded as executable Lean functions.
Conventions used throughout:

* JavaScript values that can be either a number or a string (the
  `totalPages` variable of `getList`, page tokens taken from
  `URLSearchParams.get('page')`) are modelled by the type `JVal`, whose
  operations mirror the coercion rules of the JavaScript operators that the
  source applies to them (`+` concatenates when one operand is a string,
  `<=`/`==` compare numerically, `NaN` makes every comparison false).
  String contents are real Lean strings; numeric parsing is the digit
  parser `jsNumber` (the page tokens handled by the source are decimal
  numerals, opaque bookmark tokens, or the literal `first`).
* HTTP exchanges are modelled by a deterministic server function from an
  attempt index to a `Response`; timers (`setTimeout`) only sequence
  execution in the source and are dropped.  The promise batches built with
  `Promise.all` preserve submission order, so a batch is modelled by a
  left-to-right traversal threading the shared mutable ledger.
* Mutable objects used as dictionaries (`retryCounts`, `allResults` in
  field-extraction mode, the per-item tables of `getAllResultsFromArray`)
  are modelled as association lists with JavaScript assignment semantics
  (`aset` overwrites in place or appends a fresh key).
* `processRequest` additionally returns ghost instrumentation (number of
  submissions made and the list of backoff delays waited); the `result`
  and `ledger` components are exactly the source behaviour.
-/

namespace CMC

/-! ## JavaScript value helpers -/

/-- A JavaScript value that is a number, a string, `null`, or `NaN`.
Used for the `totalPages` variables and page tokens of the source. -/
inductive JVal where
  | num (n : ℤ)
  | str (s : String)
  | jnull
  | nanv
deriving DecidableEq, Repr

/-- Numeric value of a decimal digit character. -/
def digitVal (c : Char) : Option ℕ :=
  if c.isDigit then some (c.toNat - 48) else none

/-- One step of parsing a decimal numeral (`NaN` as soon as a non-digit is hit). -/
def digitsStep (a : Option ℕ) (c : Char) : Option ℕ :=
  match a, digitVal c with
  | some n, some d => some (10 * n + d)
  | _, _ => none

/-- Parse a list of characters as a decimal numeral. -/
def parseDigits (l : List Char) : Option ℕ :=
  l.foldl digitsStep (some 0)

/-- JavaScript `Number(s)` restricted to the token shapes the source meets:
a nonempty string of decimal digits parses, anything else is `NaN` (`none`). -/
def jsNumber (s : String) : Option ℕ :=
  if s.data = [] then none else parseDigits s.data

/-- Numeric coercion of a `JVal` (`none` plays the role of `NaN`). -/
def jvalToNum : JVal → Option ℤ
  | .num n => some n
  | .str s => (jsNumber s).map (fun n => (n : ℤ))
  | .jnull => some 0
  | .nanv => none

/-- JavaScript `page <= totalPages` for a number `page` (false on `NaN`). -/
def jle (p : ℕ) (v : JVal) : Bool :=
  match jvalToNum v with
  | some t => decide ((p : ℤ) ≤ t)
  | none => false

/-- JavaScript loose equality of a `JVal` against a number literal. -/
def looseEqNum (v : JVal) (k : ℤ) : Bool :=
  match jvalToNum v with
  | some t => decide (t = k)
  | none => false

/-- JavaScript loose equality of a `JVal` against a string literal
(a number never loosely equals a non-numeric string such as `first`). -/
def looseEqStr (v : JVal) (s0 : String) : Bool :=
  match v with
  | .str s => decide (s = s0)
  | _ => false

/-- JavaScript string interpolation of a `JVal`. -/
def jvalToString : JVal → String
  | .num n => toString n
  | .str s => s
  | .jnull => "null"
  | .nanv => "NaN"

/-- JavaScript `totalPages += 10`: string concatenation when the current
value is a string, numeric addition when it is a number. -/
def jAdd10 : JVal → JVal
  | .str s => .str (s ++ "10")
  | .num n => .num (n + 10)
  | .jnull => .num 10
  | .nanv => .nanv

/-- JavaScript `totalPages++` (coerces to a number first). -/
def jInc (v : JVal) : JVal :=
  match jvalToNum v with
  | some t => .num (t + 1)
  | none => .nanv

/-- JavaScript `nextPage + 1` where `nextPage` is a string: string
concatenation with `String(1)`. -/
def jConcat1 (s : String) : JVal :=
  .str (s ++ "1")

/-- Substring test on character lists (JavaScript `String.prototype.includes`). -/
def listContains [DecidableEq α] : List α → List α → Bool
  | _, [] => true
  | [], _ :: _ => false
  | a :: rest, p :: ps => (p :: ps).isPrefixOf (a :: rest) || listContains rest (p :: ps)

/-- JavaScript `s.includes(pat)`. -/
def jsIncludes (s pat : String) : Bool :=
  listContains s.data pat.data

/-- JavaScript `parseInt`: parse the longest leading run of decimal digits,
`NaN` (`none`) when there is none. -/
def jsParseInt (s : String) : Option ℤ :=
  let digits := s.data.takeWhile Char.isDigit
  if digits = [] then none else (parseDigits digits).map (fun n => (n : ℤ))

/-- Worker for `replaceFirst`: substitute the first occurrence of `pat`
(nonempty) in the character list. -/
def replaceFirstAux (pat rep : List Char) : List Char → List Char
  | [] => []
  | a :: rest =>
    if pat.isPrefixOf (a :: rest) then rep ++ (a :: rest).drop pat.length
    else a :: replaceFirstAux pat rep rest

/-- JavaScript first-occurrence `String.prototype.replace` with a plain
string pattern. -/
def replaceFirst (s pat rep : String) : String :=
  match pat.data with
  | [] => rep ++ s
  | p :: ps => ⟨replaceFirstAux (p :: ps) rep.data s.data⟩

/-! ## Data model: records, bodies, headers, responses -/

/-- A primitive JSON field value, enough to express JavaScript truthiness. -/
inductive JLit where
  | jstr (s : String)
  | jnum (n : ℤ)
  | jbool (b : Bool)
  | jnull
deriving DecidableEq, Repr

/-- JavaScript truthiness of a field value. -/
def jlitTruthy : JLit → Bool
  | .jstr s => !s.isEmpty
  | .jnum n => decide (n ≠ 0)
  | .jbool b => b
  | .jnull => false

/-- Truthiness of an optional field value (`undefined` is falsy). -/
def jlitTruthyOpt : Option JLit → Bool
  | some v => jlitTruthy v
  | none => false

/-- A record of a fetched page: its `id` property (absent or numeric) and
its remaining named properties. -/
structure Item where
  id : Option ℤ
  fields : List (String × JLit)
deriving DecidableEq, Repr

/-- Truthiness of a record id (`undefined` and `0` are falsy). -/
def idTruthy : Option ℤ → Bool
  | some n => decide (n ≠ 0)
  | none => false

/-- Serialization of a field value (used only for the rate-limit marker
substring test on structured bodies). -/
def jlitSerialize : JLit → String
  | .jstr s => "\"" ++ s ++ "\""
  | .jnum n => toString n
  | .jbool b => toString b
  | .jnull => "null"

/-- Serialization of one record. -/
def itemSerialize (it : Item) : String :=
  let idPart := match it.id with
    | some n => "\"id\":" ++ toString n
    | none => ""
  let fieldPart := String.intercalate ","
    (it.fields.map (fun p => "\"" ++ p.1 ++ "\":" ++ jlitSerialize p.2))
  "\x7b" ++ idPart ++ "," ++ fieldPart ++ "\x7d"

/-- Serialization of an array of records (`JSON.stringify`). -/
def itemsSerialize (l : List Item) : String :=
  "[" ++ String.intercalate "," (l.map itemSerialize) ++ "]"

/-- A response body: an array of records, a plain string, or some other
structured object carried by its serialization. -/
inductive RData where
  | items (l : List Item)
  | rawStr (s : String)
  | obj (serialized : String)
deriving DecidableEq, Repr

/-- JavaScript truthiness of a body (`[]` and `\x7b\x7d` are truthy, the empty
string is falsy). -/
def RData.truthy : RData → Bool
  | .items _ => true
  | .rawStr s => !s.isEmpty
  | .obj _ => true

/-- The text the rate-limit marker is searched in: the string itself for a
string body, `JSON.stringify` of a structured body. -/
def RData.serialize : RData → String
  | .items l => itemsSerialize l
  | .rawStr s => s
  | .obj s => s

/-- The record list of an array body (the success paths of the source only
ever spread/iterate array bodies; other bodies contribute nothing). -/
def RData.asItems : RData → List Item
  | .items l => l
  | _ => []

/-- JavaScript `Array.isArray`. -/
def RData.isArray : RData → Bool
  | .items _ => true
  | _ => false

/-- JavaScript `.length` of a body: array length, string length, or
`undefined` (`none`) for a plain object. -/
def RData.jsLength : RData → Option ℕ
  | .items l => some l.length
  | .rawStr s => some s.length
  | .obj _ => none

/-- A URL appearing in a `Link` header: the full URL (as it would be
requested) together with the value of its `page` query parameter. -/
structure PageUrl where
  url : String
  page : Option String
deriving DecidableEq, Repr

/-- The parsed `Link` header: the URLs attached to the three relations the
source consumes. -/
structure LinkH where
  last : Option PageUrl
  next : Option PageUrl
  current : Option PageUrl
deriving DecidableEq, Repr

/-- Response headers: the `Link` header (absent or parsed) and the two
rate-limit headers, which the source consumes as numbers. -/
structure Headers where
  link : Option LinkH
  xRateLimitRemaining : Option ℤ
  xRequestCost : Option ℤ
deriving DecidableEq, Repr

/-- The response envelope built by `makeRequest`: status (absent on a
transport failure), headers, parsed body, and the originating request URL
(`config` is attached to every envelope by `makeRequest`). -/
structure Response where
  status : Option ℤ
  headers : Headers
  data : Option RData
  configUrl : String
deriving DecidableEq, Repr

/-- The `rel` values consumed from the `Link` header. -/
inductive Rel where
  | relLast
  | relNext
  | relCurrent
deriving DecidableEq, Repr

/-- `getPageUrl(linkHeader, rel)`: `null` when the header is absent,
otherwise the URL for the requested relation. -/
def getPageUrl (linkHeader : Option LinkH) (rel : Rel) : Option PageUrl :=
  match linkHeader with
  | none => none
  | some l =>
    match rel with
    | .relLast => l.last
    | .relNext => l.next
    | .relCurrent => l.current

/-! ## Association lists with JavaScript assignment semantics -/

/-- Lookup in an association list (JavaScript property read, `undefined`
as `none`). -/
def alookup [DecidableEq κ] : List (κ × β) → κ → Option β
  | [], _ => none
  | (k, v) :: rest, k0 => if k = k0 then some v else alookup rest k0

/-- JavaScript property assignment on an object modelled as an association
list: overwrite in place when the key exists, append otherwise. -/
def aset [DecidableEq κ] (l : List (κ × β)) (k : κ) (v : β) : List (κ × β) :=
  if (alookup l k).isSome then
    l.map (fun p => if p.1 = k then (k, v) else p)
  else l ++ [(k, v)]

/-- `retryCounts[url] || 0`. -/
def lGet [DecidableEq κ] (l : List (κ × ℕ)) (k : κ) : ℕ :=
  (alookup l k).getD 0

/-! ## calculateRetryDelay (source lines 94-109) -/

/-- JavaScript `remaining < 0` for an optional numeric header
(`undefined < 0` is false). -/
def optLtZero : Option ℤ → Bool
  | some n => decide (n < 0)
  | none => false

/-- `Math.abs(remaining)` (value under the branch where it is present). -/
def optAbs : Option ℤ → ℤ
  | some n => |n|
  | none => 0

/-- JavaScript truthiness of an optional numeric header (`undefined` and
`0` are falsy). -/
def optTruthy : Option ℤ → Bool
  | some n => decide (n ≠ 0)
  | none => false

/-- `calculateRetryDelay(headers)`, source lines 94-109.  `Math.ceil` on
the exact rational value of `(300 / remaining) * 500 * requestCost`. -/
def calculateRetryDelay (headers : Headers) : ℤ :=
  let remaining := headers.xRateLimitRemaining
  let requestCost := headers.xRequestCost
  if optLtZero remaining then optAbs remaining * 150
  else if optTruthy remaining && optTruthy requestCost then
    Int.ceil ((300 / ((remaining.getD 0 : ℤ) : ℚ)) * 500 * ((requestCost.getD 0 : ℤ) : ℚ))
  else 1000

/-! ## processRequest (source lines 52-91) -/

/-- `response && response.status === 403 && (body test)` of source lines
55-58: the body is present, truthy, and its text form contains the literal
marker `Rate Limit Exceeded`. -/
def isRateLimitError (r : Response) : Bool :=
  match r.data with
  | none => false
  | some d => d.truthy && jsIncludes d.serialize "Rate Limit Exceeded"

/-- Outcome of `processRequest`: the value the promise resolves to and the
ledger (`retryCounts`) after the call.  `attempts` and `delays` are ghost
instrumentation: how many times the config was submitted to the scheduler
and which backoff delays were waited before resubmissions. -/
structure PRO (κ : Type) where
  result : Option Response
  ledger : List (κ × ℕ)
  attempts : ℕ
  delays : List ℤ
deriving Repr

/-- Recursion worker for `processRequest`.  `resp attempt` is the response
the world gives to the attempt-th submission of this config.  The `fuel`
argument makes the source's bounded recursion structural: the retry branch
requires the incremented count to stay at most 5 and every recursive call
increments the count, so from the top-level fuel of 6 the zero-fuel case is
unreachable (it would need a count at least 6 to have passed the guard five
levels up). -/
def processRequestAux [DecidableEq κ] (resp : ℕ → Response) (k : κ) :
    ℕ → ℕ → List (κ × ℕ) → PRO κ
  | _, 0, ledger => ⟨none, ledger, 0, []⟩
  | attempt, fuel + 1, ledger =>
    let r := resp attempt
    if r.status = some 403 then
      if isRateLimitError r then
        let retryDelay := calculateRetryDelay r.headers
        let newLedger := aset ledger k (lGet ledger k + 1)
        if lGet ledger k + 1 ≤ 5 then
          let rest := processRequestAux resp k (attempt + 1) fuel newLedger
          ⟨rest.result, rest.ledger, rest.attempts + 1, retryDelay :: rest.delays⟩
        else ⟨none, newLedger, 1, []⟩
      else ⟨none, ledger, 1, []⟩
    else ⟨some r, ledger, 1, []⟩

/-- `processRequest(config, retryCounts)`, source lines 52-91, for the
request keyed by `k` (its URL).  A 403 carrying the rate-limit marker
increments the ledger entry for the URL and resubmits while the new count
is at most 5, then resolves to `null`; any other 403 resolves to `null`;
every other envelope is passed through. -/
def processRequest [DecidableEq κ] (resp : ℕ → Response) (k : κ)
    (ledger : List (κ × ℕ)) : PRO κ :=
  processRequestAux resp k 0 6 ledger

/-! ## handleConcurrentRequests (source lines 264-280) -/

/-- `handleConcurrentRequests(requestConfigs)`, source lines 264-280: a
fresh ledger is created for the call and shared by every config; the
result list pairs off with the config list in submission order
(`Promise.all` preserves order). -/
def handleConcurrentRequests [DecidableEq κ] (resp : κ → ℕ → Response)
    (requestConfigs : List κ) : List (Option Response) × List (κ × ℕ) :=
  requestConfigs.foldl
    (fun acc config =>
      let o := processRequest (resp config) config acc.2
      (acc.1 ++ [o.result], o.ledger))
    ([], [])

/-! ## getList (source lines 112-261)

One `getList` call fixes a base URL, so a request target is either a
numeric page of that base (`preparedUrl + page=p + per_page=pp`, line 116
and line 189 of the source, determined by the pair of numbers) or a raw
bookmark URL taken from a `Link` header (line 193).  Distinct pages give
distinct URL strings and bookmark URLs carry bookmark tokens, so the
ledger keyed by these values mirrors the ledger keyed by URL strings. -/

/-- A request URL of one `getList` call. -/
inductive GUrl where
  | pageU (page : ℕ) (perPage : ℕ)
  | rawU (s : String)
deriving DecidableEq, Repr

/-- The world a `getList` call talks to: a response stream (indexed by
attempt) for each numeric page and for each raw bookmark URL. -/
structure GLServer where
  byPage : ℕ → ℕ → Response
  byUrl : String → ℕ → Response

/-- The `allResults` accumulator of `getList`: an array of records in
plain mode, an id-keyed table holding the extracted field in
field-extraction mode (the source uses one JavaScript array for both;
numeric-index assignment makes it an id-keyed map in the second mode). -/
inductive GLAcc where
  | list (l : List Item)
  | table (m : List (ℤ × JLit))
deriving DecidableEq, Repr

/-- One step of field-extraction merging, source lines 132-139 and
208-215: a record contributes when both the requested field's value and
its `id` are truthy; assignment by id makes the last write win. -/
def tblStep (fname : String) (m : List (ℤ × JLit)) (r : Item) : List (ℤ × JLit) :=
  if jlitTruthyOpt (alookup r.fields fname) && idTruthy r.id then
    aset m (r.id.getD 0) ((alookup r.fields fname).getD .jnull)
  else m

/-- Merging one page of records into the accumulator: append in arrival
order (line 130/206) or fold the field-extraction step (lines 132-139 and
208-215). -/
def glMerge (item : Option String) (acc : GLAcc) (results : List Item) : GLAcc :=
  match item, acc with
  | none, .list l => .list (l ++ results)
  | some fname, .table m => .table (results.foldl (tblStep fname) m)
  | _, acc => acc

/-- The accumulator `[]` of line 113, in the shape fitting the mode. -/
def emptyAcc : Option String → GLAcc
  | none => .list []
  | some _ => .table []

/-- The loop state of `getList` entering line 185: accumulator, the `page`
counter, `totalPages` (a JavaScript number-or-string), `lastPageKnown`,
`nextbookmarkURL` (`false` or a URL), the `retryCounts` ledger, and the
`headers` binding destructured from the initial response at line 126
(which line 221 keeps reading inside the loop). -/
structure GLState where
  acc : GLAcc
  page : ℕ
  totalPages : JVal
  lastPageKnown : Bool
  nextbookmarkURL : Option PageUrl
  ledger : List (GUrl × ℕ)
  initialHeaders : Headers
deriving Repr

/-- Result of the pre-loop part of `getList`: an early return of the
accumulated results (line 178) or the state entering the batch loop. -/
inductive GLInit where
  | done (acc : GLAcc)
  | loop (st : GLState)
deriving Repr

/-- Source lines 113-183: fetch page 1 with a fresh ledger (line 120
passes a literal empty object), fail the whole call when it yields no
truthy body, merge its records, then derive `totalPages`, `lastPageKnown`
and `nextbookmarkURL` from the `Link` header.  A `rel=last` page token
makes the count authoritative unless it is the literal `first`; otherwise
a numeric `rel=next` token seeds `totalPages = nextPage + 1`, which is
JavaScript string concatenation; a bookmark `rel=next` token enters
cursor mode with `totalPages = 2`. -/
def glInit (sv : GLServer) (item : Option String) (perPage : ℕ) :
    Except String GLInit :=
  let pro := processRequest (sv.byPage 1) (GUrl.pageU 1 perPage) []
  match pro.result with
  | none => .error "Failed to fetch initial data."
  | some r =>
    match r.data with
    | none => .error "Failed to fetch initial data."
    | some rd =>
      if !rd.truthy then .error "Failed to fetch initial data." else
      let acc := glMerge item (emptyAcc item) rd.asItems
      let headers := r.headers
      let prep : Except String (JVal × Bool × Option PageUrl) :=
        match getPageUrl headers.link .relLast with
        | some pu =>
          let tp0 : JVal := match pu.page with
            | some s => .str s
            | none => .num 1
          if looseEqStr tp0 "first" then .ok (.num 1, false, none)
          else .ok (tp0, true, none)
        | none =>
          match getPageUrl headers.link .relNext with
          | some pu =>
            match pu.page with
            | none => .error "TypeError: Cannot read properties of null"
            | some s =>
              if jsIncludes s "bookmark" then .ok (.num 2, false, some pu)
              else .ok (jConcat1 s, false, none)
          | none => .ok (.num 1, false, none)
      match prep with
      | .error e => .error e
      | .ok (totalPages, lastPageKnown, nextbookmarkURL) =>
        if looseEqNum totalPages 1 then .ok (.done acc)
        else .ok (.loop ⟨acc, 2, totalPages, lastPageKnown, nextbookmarkURL, [], headers⟩)

/-- The numeric pages collected by the batch-building loop of source line
188 (`i < maxBatchSize && page <= totalPages`, re-checked before each
push, `page` advancing with `i`). -/
def batchPages : ℕ → ℕ → JVal → List ℕ
  | 0, _, _ => []
  | budget + 1, page, tp =>
    if jle page tp then page :: batchPages budget (page + 1) tp else []

/-- Source lines 186-195: the requests of one batch and the value of
`page` after building it.  Without a bookmark, up to `maxBatchSize`
numeric pages; in cursor mode exactly one request for the stored bookmark
URL (and `page++`). -/
def glBuildBatch (maxB perPage : ℕ) (st : GLState) : List GUrl × ℕ :=
  match st.nextbookmarkURL with
  | none =>
    let ps := batchPages maxB st.page st.totalPages
    (ps.map (fun p => GUrl.pageU p perPage), st.page + ps.length)
  | some pu => ([GUrl.rawU pu.url], st.page + 1)

/-- Dispatch one request of a batch through `processRequest`. -/
def runReq (sv : GLServer) (u : GUrl) (ledger : List (GUrl × ℕ)) : PRO GUrl :=
  match u with
  | .pageU p pp => processRequest (sv.byPage p) (GUrl.pageU p pp) ledger
  | .rawU s => processRequest (sv.byUrl s) (GUrl.rawU s) ledger

/-- Dispatch a batch in submission order, threading the shared ledger; the
response list pairs off with the request list (`Promise.all`, line 198). -/
def runBatch (sv : GLServer) : List GUrl → List (GUrl × ℕ) →
    List (Option Response) × List (GUrl × ℕ)
  | [], led => ([], led)
  | u :: rest, led =>
    let o := runReq sv u led
    let r := runBatch sv rest o.ledger
    (o.result :: r.1, r.2)

/-- The loop-carried variables mutated while processing one batch's
responses (lines 201-250). -/
structure GLQuad where
  acc : GLAcc
  totalPages : JVal
  lastPageKnown : Bool
  nextbookmarkURL : Option PageUrl
deriving Repr

/-- Source lines 201-249, one response.  `pageVar` is the value of the
`page` variable while responses are processed (the for loop of line 188
finished, so it is the page after the batch; line 233 reads it).
`initialHeaders` is the stale binding line 221 reads.  A `null` response
or a falsy body is skipped; otherwise its records are merged and, while
the last page is unknown and the page was full, the pagination estimate
is updated from the headers: an authoritative non-bookmark last page
fixes `totalPages`; a missing next link ends the count at `page - 1`; a
bookmark next link enters cursor mode and bumps `totalPages` by one; a
numeric next link grows `totalPages` by 10 (string concatenation when
`totalPages` is a string). -/
def procOne (item : Option String) (perPage pageVar : ℕ) (initialHeaders : Headers)
    (q : GLQuad) (resp : Option Response) : Except String GLQuad :=
  match resp with
  | none => .ok q
  | some r =>
    match r.data with
    | none => .ok q
    | some rd =>
      if !rd.truthy then .ok q else
      let acc := glMerge item q.acc rd.asItems
      let lenOK := match rd.jsLength with
        | some n => decide (perPage ≤ n)
        | none => false
      if q.lastPageKnown || !lenOK then .ok { q with acc := acc } else
      match getPageUrl initialHeaders.link .relLast with
      | some pu =>
        match pu.page with
        | none => .error "TypeError: Cannot read properties of null"
        | some s =>
          if !jsIncludes s "bookmark" then
            .ok { acc := acc
                  totalPages := match jsParseInt s with
                    | some n => .num n
                    | none => .nanv
                  lastPageKnown := true
                  nextbookmarkURL := q.nextbookmarkURL }
          else .ok { q with acc := acc }
      | none =>
        let nextPU := getPageUrl r.headers.link .relNext
        let emptyRes := match rd.jsLength with
          | some n => decide (n = 0)
          | none => true
        if emptyRes || nextPU.isNone then
          .ok { acc := acc
                totalPages := .num ((pageVar : ℤ) - 1)
                lastPageKnown := true
                nextbookmarkURL := q.nextbookmarkURL }
        else
          match nextPU with
          | none => .ok { q with acc := acc }
          | some pu =>
            match pu.page with
            | none => .error "TypeError: Cannot read properties of null"
            | some s =>
              if jsIncludes s "bookmark" then
                .ok { acc := acc
                      totalPages := jInc q.totalPages
                      lastPageKnown := q.lastPageKnown
                      nextbookmarkURL := some pu }
              else
                .ok { acc := acc
                      totalPages := jAdd10 q.totalPages
                      lastPageKnown := q.lastPageKnown
                      nextbookmarkURL := q.nextbookmarkURL }

/-- Process a batch's responses in order (lines 201-250). -/
def procAll (item : Option String) (perPage pageVar : ℕ) (initialHeaders : Headers)
    (q : GLQuad) (rs : List (Option Response)) : Except String GLQuad :=
  rs.foldlM (procOne item perPage pageVar initialHeaders) q

/-- One iteration of the `while` loop of line 185: build the batch,
dispatch it, process the responses (the inter-batch delay of line 253
only sequences execution). -/
def glStep (sv : GLServer) (item : Option String) (perPage maxB : ℕ)
    (st : GLState) : Except String GLState :=
  let built := glBuildBatch maxB perPage st
  let ran := runBatch sv built.1 st.ledger
  match procAll item perPage built.2 st.initialHeaders
      ⟨st.acc, st.totalPages, st.lastPageKnown, st.nextbookmarkURL⟩ ran.1 with
  | .error e => .error e
  | .ok q =>
    .ok ⟨q.acc, built.2, q.totalPages, q.lastPageKnown, q.nextbookmarkURL,
         ran.2, st.initialHeaders⟩

/-- The guard of the `while` loop, line 185:
`page <= totalPages || Object.keys(retryCounts).length > 0`. -/
def glGuard (st : GLState) : Bool :=
  jle st.page st.totalPages || !st.ledger.isEmpty

/-- The batch loop of lines 185-254, with fuel making the iteration
count explicit: `none` means the loop is still running after `fuel`
iterations. -/
def glLoop (sv : GLServer) (item : Option String) (perPage maxB : ℕ) :
    ℕ → GLState → Option (Except String GLAcc)
  | 0, _ => none
  | fuel + 1, st =>
    if glGuard st then
      match glStep sv item perPage maxB st with
      | .error e => some (.error e)
      | .ok st2 => glLoop sv item perPage maxB fuel st2
    else some (.ok st.acc)

/-- `getList(url, vars, perPage, maxBatchSize, batchDelay, item)`, source
lines 112-261.  The base URL, `vars` and `batchDelay` do not affect the
value semantics (they only shape URL strings and timing) and are folded
into the `GLServer` abstraction.  `some (.ok acc)` is a normal return,
`some (.error e)` a thrown error, `none` a loop still running after
`fuel` batch iterations. -/
def getList (sv : GLServer) (item : Option String) (perPage maxB fuel : ℕ) :
    Option (Except String GLAcc) :=
  match glInit sv item perPage with
  | .error e => some (.error e)
  | .ok (.done acc) => some (.ok acc)
  | .ok (.loop st) => glLoop sv item perPage maxB fuel st

/-- The call never returns: no amount of fuel finishes the batch loop. -/
def GetListDiverges (sv : GLServer) (item : Option String) (perPage maxB : ℕ) : Prop :=
  ∀ fuel, getList sv item perPage maxB fuel = none

/-! ## getAllResultsFromArray (source lines 352-482)

Here request URLs are real strings (the misbehaviour of
`items.find(it => itemUrl.includes(it))` depends on their characters), and
the per-item tables are keyed by the value that `find` returns, which is
`undefined` (`none`) when no item's decimal form occurs in the URL. -/

/-- The world of one aggregator call: a response stream (indexed by
attempt) for each URL string. -/
def AServer : Type := String → ℕ → Response

/-- A value stored in the aggregator's `allResults` object: an array of
records, some non-array body stored as-is (line 405), or `undefined`
(storing an absent body). -/
inductive AggVal where
  | arr (l : List Item)
  | other (d : RData)
  | undef
deriving DecidableEq, Repr

/-- The state of the aggregator's `while` loop (line 362). -/
structure AggState where
  allResults : List (Option ℤ × AggVal)
  retryCounts : List (String × ℕ)
  totalPages : List (Option ℤ × JVal)
  lastPageKnown : List (Option ℤ × Bool)
  currentBatch : List String
  currentIndex : ℕ
deriving Repr

/-- The batch-filling loop of lines 364-373: pull items while the batch
has room, registering each item's initial URL and pagination entries. -/
def aggFill (templateUrl : String) (items : List ℤ) : ℕ → ℕ → AggState → AggState
  | _, 0, st => st
  | idx, n + 1, st =>
    match items[idx]? with
    | none => st
    | some it =>
      let initialUrl := replaceFirst templateUrl "<item>" (toString it)
      aggFill templateUrl items (idx + 1) n
        { st with
          currentBatch := st.currentBatch ++ [initialUrl]
          retryCounts := aset st.retryCounts initialUrl 0
          totalPages := aset st.totalPages (some it) (.num 1)
          lastPageKnown := aset st.lastPageKnown (some it) false
          currentIndex := idx + 1 }

/-- How many items the filling loop admits: it stops when its counter hits
`maxBatchSize`, the batch reaches `maxBatchSize`, or the items run out
(line 364). -/
def aggFillCount (maxB batchLen itemsLeft : ℕ) : ℕ :=
  min (maxB - batchLen) itemsLeft

/-- Split a list into chunks of `sz` (the slicing loop of lines 383-387);
the fuel equals the list length, enough for any positive `sz`. -/
def chunksGo (sz : ℕ) : ℕ → List α → List (List α)
  | 0, _ => []
  | _, [] => []
  | fuel + 1, l => l.take sz :: chunksGo sz fuel (l.drop sz)

/-- Source lines 378-391: a batch larger than `maxBatchSize` is processed
in chunks of `maxBatchSize`, each through `handleConcurrentRequests`
(which creates its own fresh retry ledger, line 265); otherwise one
direct call. -/
def aggRunConfigs (sv : AServer) (cfgs : List String) (maxB : ℕ) :
    List (Option Response) :=
  if maxB < cfgs.length then
    (chunksGo maxB cfgs.length cfgs).foldl
      (fun acc ch => acc ++ (handleConcurrentRequests sv ch).1) []
  else (handleConcurrentRequests sv cfgs).1

/-- The variables mutated while one batch's results are processed
(lines 396-474): the result tables and the freshly spawned page requests
(`currentBatch` was reset at line 394 before processing). -/
structure AggQuad where
  allResults : List (Option ℤ × AggVal)
  totalPages : List (Option ℤ × JVal)
  lastPageKnown : List (Option ℤ × Bool)
  batchAcc : List String
deriving Repr

/-- JavaScript `currentPage > totalPages[item]` (line 453): `NaN` or
`undefined` on either side makes the comparison false. -/
def jgtOpt (a : Option ℤ) (b : Option JVal) : Bool :=
  match a, b.bind jvalToNum with
  | some x, some y => decide (y < x)
  | _, _ => false

/-- Number of iterations of `for (let page = v; page <= tp; page++)`. -/
def spawnCount (v tp : JVal) : ℕ :=
  match jvalToNum v, jvalToNum tp with
  | some a, some b => (b - a + 1).toNat
  | _, _ => 0

/-- The successive values of the `page` variable of that loop: the start
value as it is (interpolated into the first URL in its original string
form), then numbers. -/
def spawnVals (v tp : JVal) : List JVal :=
  match spawnCount v tp with
  | 0 => []
  | k + 1 =>
    v :: (List.range k).map (fun i => JVal.num ((jvalToNum v).getD 0 + 1 + (i : ℤ)))

/-- The string `item` interpolates to when used as a replacement: the
decimal form of the found item, or `undefined` when `find` returned none. -/
def keyToString : Option ℤ → String
  | some n => toString n
  | none => "undefined"

/-- The page URL built at lines 433 and 458: the item-substituted template
directly followed by `page=` and the page value (the source inserts no
separator). -/
def aggPageUrl (templateUrl : String) (key : Option ℤ) (v : JVal) : String :=
  replaceFirst templateUrl "<item>" (keyToString key) ++ "page=" ++ jvalToString v

/-- `totalPages[item] + 10` of line 455 (`undefined + 10` is `NaN`). -/
def jPlus10Opt : Option JVal → JVal
  | some v => jAdd10 v
  | none => .nanv

/-- `totalPages[item]++` of line 465 (`undefined` becomes `NaN`). -/
def jIncOpt : Option JVal → JVal
  | some v => jInc v
  | none => .nanv

/-- Source lines 396-473, one batch result.  Reading `result.config.url`
inside the template literal of line 472 throws a `TypeError` when the
result is `null`; this read happens before the `result ? ... : ...`
conditional of the same line. -/
def procAggOne (templateUrl : String) (items : List ℤ) (perPage : ℕ)
    (q : AggQuad) (result : Option Response) : Except String AggQuad :=
  match result with
  | none => .error "TypeError: Cannot read properties of null (reading config)"
  | some r =>
    if r.status = some 200 then
      let itemUrl := r.configUrl
      let key : Option ℤ := items.find? (fun it => jsIncludes itemUrl (toString it))
      let currentResults : AggVal := match alookup q.allResults key with
        | none => .arr []
        | some .undef => .arr []
        | some v => v
      let stored : Except String (List (Option ℤ × AggVal)) :=
        match r.data with
        | some (.items l) =>
          match currentResults with
          | .arr cur => .ok (aset q.allResults key (.arr (cur ++ l)))
          | _ => .error "TypeError: currentResults.concat is not a function"
        | some d => .ok (aset q.allResults key (.other d))
        | none => .ok (aset q.allResults key .undef)
      match stored with
      | .error e => .error e
      | .ok allResults1 =>
        if (alookup q.lastPageKnown key).getD false then
          .ok { q with allResults := allResults1 }
        else
          match r.data with
          | none => .error "TypeError: Cannot read properties of undefined"
          | some rd =>
            let lenOK := match rd.jsLength with
              | some n => decide (perPage ≤ n)
              | none => false
            if !lenOK then .ok { q with allResults := allResults1 } else
            let lastPageUrl := getPageUrl r.headers.link .relLast
            let nextPageUrl := getPageUrl r.headers.link .relNext
            let currentPageUrl := getPageUrl r.headers.link .relCurrent
            match lastPageUrl with
            | some pu =>
              match pu.page with
              | none => .error "TypeError: Cannot read properties of null"
              | some s =>
                if !jsIncludes s "bookmark" && !jsIncludes s "first" then
                  let tpn : ℤ := match jsParseInt s with
                    | some n => if n = 0 then 1 else n
                    | none => 1
                  let currentPage : JVal := match currentPageUrl with
                    | some cpu =>
                      match cpu.page with
                      | some cs => .str cs
                      | none => .jnull
                    | none => .num 1
                  let urls := (spawnVals currentPage (.num tpn)).map
                    (aggPageUrl templateUrl key)
                  .ok { allResults := allResults1
                        totalPages := aset q.totalPages key (.num tpn)
                        lastPageKnown := aset q.lastPageKnown key true
                        batchAcc := q.batchAcc ++ urls }
                else .ok { q with allResults := allResults1 }
            | none =>
              match nextPageUrl with
              | some pu =>
                match pu.page with
                | none => .error "TypeError: Cannot read properties of null"
                | some s =>
                  if !jsIncludes s "bookmark" then
                    let currentPage : Option ℤ := match currentPageUrl with
                      | some cpu =>
                        match cpu.page with
                        | some cs => jsParseInt cs
                        | none => none
                      | none => some 1
                    if jgtOpt currentPage (alookup q.totalPages key) then
                      let tpNew := jPlus10Opt (alookup q.totalPages key)
                      let urls := (spawnVals (.num (currentPage.getD 0 + 1)) tpNew).map
                        (aggPageUrl templateUrl key)
                      .ok { allResults := allResults1
                            totalPages := aset q.totalPages key tpNew
                            lastPageKnown := q.lastPageKnown
                            batchAcc := q.batchAcc ++ urls }
                    else .ok { q with allResults := allResults1 }
                  else
                    .ok { allResults := allResults1
                          totalPages := aset q.totalPages key
                            (jIncOpt (alookup q.totalPages key))
                          lastPageKnown := q.lastPageKnown
                          batchAcc := q.batchAcc ++ [pu.url] }
              | none => .ok { q with allResults := allResults1 }
    else .ok q

/-- Process one batch's results in order (line 396). -/
def procAggAll (templateUrl : String) (items : List ℤ) (perPage : ℕ)
    (q : AggQuad) (rs : List (Option Response)) : Except String AggQuad :=
  rs.foldlM (procAggOne templateUrl items perPage) q

/-- The `while` loop of lines 362-479, with explicit fuel.  After filling,
the execute condition of line 376 necessarily holds whenever the loop
guard did, but it is modelled as in the source. -/
def aggLoop (sv : AServer) (templateUrl : String) (items : List ℤ)
    (perPage maxB : ℕ) :
    ℕ → AggState → Option (Except String (List (Option ℤ × AggVal)))
  | 0, _ => none
  | fuel + 1, st =>
    if st.currentIndex < items.length || !st.currentBatch.isEmpty then
      let n := aggFillCount maxB st.currentBatch.length (items.length - st.currentIndex)
      let st1 := aggFill templateUrl items st.currentIndex n st
      if maxB ≤ st1.currentBatch.length || items.length ≤ st1.currentIndex then
        let results := aggRunConfigs sv st1.currentBatch maxB
        match procAggAll templateUrl items perPage
            ⟨st1.allResults, st1.totalPages, st1.lastPageKnown, []⟩ results with
        | .error e => some (.error e)
        | .ok q =>
          aggLoop sv templateUrl items perPage maxB fuel
            ⟨q.allResults, st1.retryCounts, q.totalPages, q.lastPageKnown,
             q.batchAcc, st1.currentIndex⟩
      else aggLoop sv templateUrl items perPage maxB fuel st1
    else some (.ok st.allResults)

/-- `getAllResultsFromArray(basePattern, items, vars, perPage,
maxBatchSize, batchDelay)`, source lines 352-482 (`batchDelay` only
sequences execution). -/
def getAllResultsFromArray (sv : AServer) (basePattern : String)
    (items : List ℤ) (vars : Bool) (perPage maxB fuel : ℕ) :
    Option (Except String (List (Option ℤ × AggVal))) :=
  let templateUrl := basePattern ++ (if vars then "&" else "?") ++
    "per_page=" ++ toString perPage
  aggLoop sv templateUrl items perPage maxB fuel ⟨[], [], [], [], [], 0⟩

/-! ## Server classes and helper definitions used by the claims -/

/-- Concatenation of `count` consecutive pages starting at `start`. -/
def joinPages (pages : ℕ → List Item) (start : ℕ) : ℕ → List Item
  | 0 => []
  | k + 1 => pages start ++ joinPages pages (start + 1) k

/-- The flat field-extraction of a record list (fold of the merge step
over an empty table). -/
def extractTable (fname : String) (rs : List Item) : List (ℤ × JLit) :=
  rs.foldl (tblStep fname) []

/-- The last field value written for id `i` when extracting `fname` from
`rs`: the value of the last record whose field value and id are truthy
and whose id is `i`. -/
def lastFieldWrite (fname : String) (rs : List Item) (i : ℤ) : Option JLit :=
  ((rs.filter (fun r =>
      jlitTruthyOpt (alookup r.fields fname) && idTruthy r.id &&
        decide (r.id = some i))).getLast?).bind
    (fun r => alookup r.fields fname)

/-- A numerically paginated resource with `N` total pages, as Canvas
serves them: every page responds with status 200, an array body, and a
`Link` header whose `rel=last` entry carries the numeric page token
`tok` of value `N` — all on the first attempt (no rate limiting). -/
structure NumericLastServer (sv : GLServer) (N : ℕ) (pages : ℕ → List Item)
    (tok : String) : Prop where
  tok_val : jsNumber tok = some N
  resp_status : ∀ p, 1 ≤ p → p ≤ N → (sv.byPage p 0).status = some 200
  resp_data : ∀ p, 1 ≤ p → p ≤ N → (sv.byPage p 0).data = some (.items (pages p))
  resp_last : ∀ p, 1 ≤ p → p ≤ N →
    ∃ lk u, (sv.byPage p 0).headers.link = some lk ∧ lk.last = some ⟨u, some tok⟩

/-- Reachability in the batch loop: zero or more successful `glStep`s. -/
def glReach (sv : GLServer) (item : Option String) (perPage maxB : ℕ) :
    GLState → GLState → Prop :=
  Relation.ReflTransGen (fun a b => glStep sv item perPage maxB a = .ok b)

/-- Ledger threading of `handleConcurrentRequests`: the shared ledger
after the requests of `l` have been dispatched in order, starting from
`led`. -/
def hcrLedgerAt [DecidableEq κ] (resp : κ → ℕ → Response)
    (led : List (κ × ℕ)) (l : List κ) : List (κ × ℕ) :=
  l.foldl (fun ld c => (processRequest (resp c) c ld).ledger) led

/-- Recursive form of `handleConcurrentRequests` (same function, stated
without the `foldl` accumulator; used to reason about it). -/
def hcrGo [DecidableEq κ] (resp : κ → ℕ → Response) :
    List κ → List (κ × ℕ) → List (Option Response) × List (κ × ℕ)
  | [], led => ([], led)
  | c :: cs, led =>
    let o := processRequest (resp c) c led
    let r := hcrGo resp cs o.ledger
    (o.result :: r.1, r.2)

/-! ## Concrete inputs for counterexamples and witnesses -/

/-- A record carrying only an id. -/
def itemOfId (n : ℤ) : Item := ⟨some n, []⟩

/-- A successful empty page with no pagination links. -/
def emptyPage : Response :=
  ⟨some 200, ⟨none, none, none⟩, some (.items []), "e"⟩

/-- First page of the two-page resource used for the retry-hang inputs:
one record, `rel=last` pointing at page 2. -/
def hangPage1 : Response :=
  ⟨some 200, ⟨some ⟨some ⟨"L", some "2"⟩, none, none⟩, none, none⟩,
   some (.items [itemOfId 1]), "p1"⟩

/-- Second page of that resource (served on the retry). -/
def hangPage2 : Response :=
  ⟨some 200, ⟨some ⟨some ⟨"L", some "2"⟩, none, none⟩, none, none⟩,
   some (.items [itemOfId 2]), "p2"⟩

/-- The rate-limit rejection served on the first attempt at page 2. -/
def rlRespHang : Response :=
  ⟨some 403, ⟨none, some 100, some 1⟩,
   some (.rawStr "403 Rate Limit Exceeded"), "p2"⟩

/-- A two-page resource whose page-2 request is rate limited once and
then succeeds: every request eventually succeeds, after one retry. -/
def hangServer : GLServer :=
  ⟨fun p a => if p = 1 then hangPage1 else if a = 0 then rlRespHang else hangPage2,
   fun _ _ => emptyPage⟩

/-- The loop state `getList` reaches on `hangServer` (with `perPage = 1`,
`maxBatchSize = 1`) once both pages are fetched and the single retry has
succeeded: the page counter is past `totalPages` but the ledger still
holds the retried URL. -/
def hangState : GLState :=
  ⟨.list [itemOfId 1, itemOfId 2], 3, .str "2", true, none,
   [(GUrl.pageU 2 1, 1)], ⟨some ⟨some ⟨"L", some "2"⟩, none, none⟩, none, none⟩⟩

/-- First page used for the seeding counterexample: no `rel=last`, a
numeric `rel=next` with page token `2`. -/
def c5Page1 : Response :=
  ⟨some 200, ⟨some ⟨none, some ⟨"N2", some "2"⟩, none⟩, none, none⟩,
   some (.items [itemOfId 1]), "p1"⟩

/-- Server for the seeding counterexample. -/
def c5Server : GLServer :=
  ⟨fun p _ => if p = 1 then c5Page1 else emptyPage, fun _ _ => emptyPage⟩

/-- The `totalPages` value a `getList` run enters its loop with. -/
def seedOf : Except String GLInit → JVal
  | .ok (.loop st) => st.totalPages
  | _ => .nanv

/-- A server that always answers an empty page (used where the responses
are irrelevant). -/
def trivServer : GLServer := ⟨fun _ _ => emptyPage, fun _ _ => emptyPage⟩

/-- A loop state that has entered cursor (bookmark) mode. -/
def c6State : GLState :=
  ⟨.list [], 2, .num 2, false, some ⟨"bk", some "bookmark:x"⟩, [],
   ⟨none, none, none⟩⟩

/-- A record whose `name` field is present but falsy (the empty string). -/
def c9Item : Item := ⟨some 1, [("name", .jstr "")]⟩

/-- One-page resource containing that record. -/
def c9Page1 : Response :=
  ⟨some 200, ⟨some ⟨some ⟨"L", some "1"⟩, none, none⟩, none, none⟩,
   some (.items [c9Item]), "p1"⟩

/-- Server for the field-extraction counterexample. -/
def c9Server : GLServer :=
  ⟨fun p _ => if p = 1 then c9Page1 else emptyPage, fun _ _ => emptyPage⟩

/-- A rate-limited 403 with a negative `x-rate-limit-remaining` header
(backoff is then `abs(remaining) * 150 = 300`). -/
def c1RL : Response :=
  ⟨some 403, ⟨none, some (-2), none⟩, some (.rawStr "Rate Limit Exceeded"), "w"⟩

/-- A plain success envelope. -/
def c1OK : Response :=
  ⟨some 200, ⟨none, none, none⟩, some (.items []), "w"⟩

/-- A response stream that is rate limited on every attempt. -/
def c1StreamAll : ℕ → Response := fun _ => c1RL

/-- A response stream that is rate limited twice and then succeeds. -/
def c1StreamMix : ℕ → Response := fun i => if i < 2 then c1RL else c1OK

/-- The response stream of the aggregator counterexamples: a keyed map
from URL strings, defaulting to an empty 200 page echoing its URL. -/
def c7Server : AServer := fun u _ =>
  ⟨some 403, ⟨none, none, none⟩, some (.rawStr "Forbidden"), u⟩

/-- The single record of key 10's one page. -/
def c8ItemA : Item := ⟨some 101, []⟩

/-- The record repeated on key 20's full first page. -/
def c8ItemB : Item := ⟨some 201, []⟩

/-- Key 20's full first page: 100 records. -/
def c8PageB1 : List Item := List.replicate 100 c8ItemB

/-- The aggregator server of the attribution counterexample: key 10 has a
single short page; key 20 has a full first page whose `Link` header
advertises `last` page 3, `next` page 2 and `current` page 1; every other
URL answers an empty 200 page. -/
def c8Server : AServer := fun u _ =>
  if u = "c/10/x?per_page=100" then
    ⟨some 200, ⟨none, none, none⟩, some (.items [c8ItemA]), u⟩
  else if u = "c/20/x?per_page=100" then
    ⟨some 200,
     ⟨some ⟨some ⟨"L", some "3"⟩, some ⟨"Nx", some "2"⟩, some ⟨"C", some "1"⟩⟩,
      none, none⟩,
     some (.items c8PageB1), u⟩
  else ⟨some 200, ⟨none, none, none⟩, some (.items []), u⟩

/-- Pages of a concrete three-page resource. -/
def c3Pages : ℕ → List Item := fun p =>
  if p = 1 then [itemOfId 11, itemOfId 12]
  else if p = 2 then [itemOfId 21, itemOfId 22]
  else if p = 3 then [itemOfId 31]
  else []

/-- A concrete three-page numeric resource advertising `rel=last` page 3. -/
def c3Server : GLServer :=
  ⟨fun p _ =>
    ⟨some 200, ⟨some ⟨some ⟨"L", some "3"⟩, none, none⟩, none, none⟩,
     some (.items (c3Pages p)), "c3"⟩,
   fun _ _ => emptyPage⟩

/-- Pages of a concrete two-page resource with one named field per record. -/
def c9aPages : ℕ → List Item := fun p =>
  if p = 1 then [⟨some 1, [("name", .jstr "a")]⟩]
  else if p = 2 then [⟨some 2, [("name", .jstr "b")]⟩]
  else []

/-- A concrete two-page numeric resource for field extraction. -/
def c9aServer : GLServer :=
  ⟨fun p _ =>
    ⟨some 200, ⟨some ⟨some ⟨"L", some "2"⟩, none, none⟩, none, none⟩,
     some (.items (c9aPages p)), "c9"⟩,
   fun _ _ => emptyPage⟩

/-- A response stream answering every URL with an empty success page. -/
def c10Resp : String → ℕ → Response := fun u _ =>
  ⟨some 200, ⟨none, none, none⟩, some (.items []), u⟩


/-! ## Supporting lemmas -/

theorem jvalToNum_str {tok : String} {N : ℕ} (h : jsNumber tok = some N) :
    jvalToNum (.str tok) = some (N : ℤ) := by
  simp [jvalToNum, h]

theorem jle_str {tok : String} {N : ℕ} (h : jsNumber tok = some N) (p : ℕ) :
    jle p (.str tok) = decide (p ≤ N) := by
  simp [jle, jvalToNum_str h]

theorem batchPages_eq {tok : String} {N : ℕ} (h : jsNumber tok = some N) :
    ∀ (b page : ℕ), batchPages b page (.str tok) = List.range' page (min b (N + 1 - page)) := by
  intro b
  induction b with
  | zero => intro page; simp [batchPages]
  | succ b ih =>
    intro page
    rw [batchPages, jle_str h]
    by_cases hp : page ≤ N
    · rw [if_pos (by simpa using hp), ih (page + 1)]
      have hmin : min (b + 1) (N + 1 - page) = min b (N + 1 - (page + 1)) + 1 := by omega
      rw [hmin, List.range'_succ]
    · rw [if_neg (by simpa using hp)]
      have hmin : min (b + 1) (N + 1 - page) = 0 := by omega
      rw [hmin]
      rfl

theorem processRequestAux_not403 {κ : Type} [DecidableEq κ] (resp : ℕ → Response) (k : κ)
    (a fuel : ℕ) (led : List (κ × ℕ)) (h : ¬(resp a).status = some 403) :
    processRequestAux resp k a (fuel + 1) led = ⟨some (resp a), led, 1, []⟩ := by
  rw [processRequestAux]
  simp [h]

theorem processRequest_not403 {κ : Type} [DecidableEq κ] (resp : ℕ → Response) (k : κ)
    (led : List (κ × ℕ)) (h : ¬(resp 0).status = some 403) :
    processRequest resp k led = ⟨some (resp 0), led, 1, []⟩ :=
  processRequestAux_not403 resp k 0 5 led h

theorem runBatch_ok (sv : GLServer) (pp : ℕ) :
    ∀ (ps : List ℕ) (led : List (GUrl × ℕ)),
      (∀ p ∈ ps, (sv.byPage p 0).status = some 200) →
      runBatch sv (ps.map (fun p => GUrl.pageU p pp)) led =
        (ps.map (fun p => some (sv.byPage p 0)), led) := by
  intro ps
  induction ps with
  | nil => intro led _; rfl
  | cons p rest ih =>
    intro led h
    have h200 : ¬(sv.byPage p 0).status = some 403 := by
      rw [h p (by simp)]; simp
    simp only [List.map_cons]
    rw [runBatch]
    simp only [runReq]
    rw [processRequest_not403 _ _ _ h200]
    rw [ih led (fun q hq => h q (by simp [hq]))]

theorem glMerge_nil (item : Option String) (acc : GLAcc) : glMerge item acc [] = acc := by
  cases item <;> cases acc <;> simp [glMerge]

theorem glMerge_append (item : Option String) (acc : GLAcc) (xs ys : List Item) :
    glMerge item (glMerge item acc xs) ys = glMerge item acc (xs ++ ys) := by
  cases item <;> cases acc <;> simp [glMerge, List.foldl_append]

theorem procOne_lastKnown (item : Option String) (pp pv : ℕ) (ihh : Headers)
    (q : GLQuad) (r : Response) (its : List Item)
    (hq : q.lastPageKnown = true) (hd : r.data = some (.items its)) :
    procOne item pp pv ihh q (some r) = .ok { q with acc := glMerge item q.acc its } := by
  obtain ⟨rs, rh, rd0, rc⟩ := r
  simp only at hd
  subst hd
  simp [procOne, RData.truthy, RData.asItems, hq]

theorem procAll_lastKnown (item : Option String) (pp pv : ℕ) (ihh : Headers)
    (f : ℕ → Response) (pages : ℕ → List Item) :
    ∀ (ps : List ℕ) (q : GLQuad), q.lastPageKnown = true →
      (∀ p ∈ ps, (f p).data = some (.items (pages p))) →
      procAll item pp pv ihh q (ps.map (fun p => some (f p))) =
        .ok { q with acc := glMerge item q.acc ((ps.map pages).flatten) } := by
  intro ps
  induction ps with
  | nil =>
    intro q hq _
    simp only [List.map_nil, List.flatten_nil, glMerge_nil]
    rfl
  | cons p rest ih =>
    intro q hq hd
    simp only [List.map_cons, procAll, List.foldlM]
    rw [procOne_lastKnown item pp pv ihh q (f p) (pages p) hq (hd p (by simp))]
    show procAll item pp pv ihh _ (rest.map (fun p => some (f p))) = _
    rw [ih { q with acc := glMerge item q.acc (pages p) } hq (fun x hx => hd x (by simp [hx]))]
    simp [glMerge_append, List.flatten_cons]

theorem joinPages_flatten (pages : ℕ → List Item) :
    ∀ (k s : ℕ), ((List.range' s k).map pages).flatten = joinPages pages s k := by
  intro k
  induction k with
  | zero => intro s; rfl
  | succ k ih =>
    intro s
    rw [List.range'_succ]
    simp only [List.map_cons, List.flatten_cons, joinPages, ih]

theorem joinPages_add (pages : ℕ → List Item) (a : ℕ) :
    ∀ (s b : ℕ), joinPages pages s (a + b) = joinPages pages s a ++ joinPages pages (s + a) b := by
  induction a with
  | zero => intro s b; simp [joinPages]
  | succ a ih =>
    intro s b
    have h1 : a + 1 + b = (a + b) + 1 := by omega
    rw [h1]
    show pages s ++ joinPages pages (s + 1) (a + b) = _
    rw [ih (s + 1) b]
    have h2 : s + 1 + a = s + (a + 1) := by omega
    simp [joinPages, h2]

theorem glStep_numeric {sv : GLServer} {N : ℕ} {pages : ℕ → List Item} {tok : String}
    (hsv : NumericLastServer sv N pages tok) (item : Option String) (pp maxB : ℕ)
    (hdrs : Headers) (page : ℕ) (acc : GLAcc) (hle : page ≤ N) (h1 : 1 ≤ page) :
    glStep sv item pp maxB ⟨acc, page, .str tok, true, none, [], hdrs⟩ =
      .ok ⟨glMerge item acc (joinPages pages page (min maxB (N + 1 - page))),
           page + min maxB (N + 1 - page), .str tok, true, none, [], hdrs⟩ := by
  have hmem : ∀ p ∈ List.range' page (min maxB (N + 1 - page)), 1 ≤ p ∧ p ≤ N := by
    intro p hp
    rcases List.mem_range'.mp hp with ⟨i, hi, rfl⟩
    omega
  unfold glStep glBuildBatch
  simp only
  rw [batchPages_eq hsv.tok_val]
  rw [runBatch_ok sv pp _ [] (fun p hp => hsv.resp_status p (hmem p hp).1 (hmem p hp).2)]
  rw [procAll_lastKnown item pp _ hdrs (fun p => sv.byPage p 0) pages _ _ rfl
    (fun p hp => hsv.resp_data p (hmem p hp).1 (hmem p hp).2)]
  simp [List.length_range', joinPages_flatten]

theorem glLoop_succ (sv : GLServer) (item : Option String) (pp maxB n : ℕ) (st : GLState) :
    glLoop sv item pp maxB (n + 1) st =
      if glGuard st then
        match glStep sv item pp maxB st with
        | .error e => some (.error e)
        | .ok st2 => glLoop sv item pp maxB n st2
      else some (.ok st.acc) := rfl

theorem glLoop_numeric {sv : GLServer} {N : ℕ} {pages : ℕ → List Item} {tok : String}
    (hsv : NumericLastServer sv N pages tok) (item : Option String) (pp maxB : ℕ)
    (hB : 1 ≤ maxB) (hdrs : Headers) :
    ∀ (fuel page : ℕ) (acc : GLAcc), 2 ≤ page → page ≤ N + 1 → N + 1 - page < fuel →
      glLoop sv item pp maxB fuel ⟨acc, page, .str tok, true, none, [], hdrs⟩ =
        some (.ok (glMerge item acc (joinPages pages page (N + 1 - page)))) := by
  intro fuel
  induction fuel with
  | zero => intro page acc _ _ h; omega
  | succ n ih =>
    intro page acc h2 hle hf
    by_cases hp : page ≤ N
    · have hguard : glGuard ⟨acc, page, .str tok, true, none, [], hdrs⟩ = true := by
        simp [glGuard, jle_str hsv.tok_val, hp]
      rw [glLoop_succ, hguard, if_pos rfl]
      rw [glStep_numeric hsv item pp maxB hdrs page acc hp (by omega)]
      have hk1 : 1 ≤ min maxB (N + 1 - page) := by omega
      have hk2 : min maxB (N + 1 - page) ≤ N + 1 - page := by omega
      show glLoop sv item pp maxB n
        ⟨glMerge item acc (joinPages pages page (min maxB (N + 1 - page))),
         page + min maxB (N + 1 - page), .str tok, true, none, [], hdrs⟩ =
        some (.ok (glMerge item acc (joinPages pages page (N + 1 - page))))
      rw [ih (page + min maxB (N + 1 - page)) _ (by omega) (by omega) (by omega)]
      rw [glMerge_append]
      have hsplit : N + 1 - page = min maxB (N + 1 - page) + (N + 1 - (page + min maxB (N + 1 - page))) := by
        omega
      have hjoin : joinPages pages page (N + 1 - page) =
          joinPages pages page (min maxB (N + 1 - page)) ++
            joinPages pages (page + min maxB (N + 1 - page))
              (N + 1 - (page + min maxB (N + 1 - page))) := by
        conv_lhs => rw [hsplit]
        rw [joinPages_add]
      rw [hjoin]
    · have hpage : page = N + 1 := by omega
      subst hpage
      have hguard : glGuard ⟨acc, N + 1, .str tok, true, none, [], hdrs⟩ = false := by
        simp [glGuard, jle_str hsv.tok_val]
      rw [glLoop_succ, hguard, if_neg (by simp)]
      have h0 : N + 1 - (N + 1) = 0 := by omega
      rw [h0]
      simp [joinPages, glMerge_nil]

theorem jsNumber_ne_first {tok : String} {N : ℕ} (h : jsNumber tok = some N) :
    tok ≠ "first" := by
  intro he
  subst he
  have hf : jsNumber "first" = none := rfl
  rw [hf] at h
  exact Option.noConfusion h

theorem glInit_numeric_loop {sv : GLServer} {N : ℕ} {pages : ℕ → List Item} {tok : String}
    (hsv : NumericLastServer sv N pages tok) (hN : 2 ≤ N) (item : Option String) (pp : ℕ) :
    glInit sv item pp =
      .ok (.loop ⟨glMerge item (emptyAcc item) (pages 1), 2, .str tok, true, none, [],
        (sv.byPage 1 0).headers⟩) := by
  have h200 : ¬(sv.byPage 1 0).status = some 403 := by
    rw [hsv.resp_status 1 (by omega) (by omega)]; simp
  obtain ⟨lk, u, hlink, hlast⟩ := hsv.resp_last 1 (by omega) (by omega)
  unfold glInit
  rw [processRequest_not403 _ _ _ h200]
  simp only
  rw [hsv.resp_data 1 (by omega) (by omega)]
  simp only [RData.truthy, Bool.not_true, RData.asItems]
  rw [hlink]
  simp only [getPageUrl, hlast]
  have hfirst : looseEqStr (.str tok) "first" = false := by
    simp [looseEqStr, jsNumber_ne_first hsv.tok_val]
  rw [hfirst]
  simp only [Bool.false_eq_true, if_false]
  have heq1 : looseEqNum (.str tok) 1 = false := by
    simp [looseEqNum, jvalToNum_str hsv.tok_val]
    omega
  rw [heq1]
  simp

theorem glInit_numeric_one {sv : GLServer} {pages : ℕ → List Item} {tok : String}
    (hsv : NumericLastServer sv 1 pages tok) (item : Option String) (pp : ℕ) :
    glInit sv item pp = .ok (.done (glMerge item (emptyAcc item) (pages 1))) := by
  have h200 : ¬(sv.byPage 1 0).status = some 403 := by
    rw [hsv.resp_status 1 (by omega) (by omega)]; simp
  obtain ⟨lk, u, hlink, hlast⟩ := hsv.resp_last 1 (by omega) (by omega)
  unfold glInit
  rw [processRequest_not403 _ _ _ h200]
  simp only
  rw [hsv.resp_data 1 (by omega) (by omega)]
  simp only [RData.truthy, Bool.not_true, RData.asItems]
  rw [hlink]
  simp only [getPageUrl, hlast]
  have hfirst : looseEqStr (.str tok) "first" = false := by
    simp [looseEqStr, jsNumber_ne_first hsv.tok_val]
  rw [hfirst]
  simp only [Bool.false_eq_true, if_false]
  have heq1 : looseEqNum (.str tok) 1 = true := by
    simp [looseEqNum, jvalToNum_str hsv.tok_val]
  rw [heq1]
  simp

theorem joinPages_one (pages : ℕ → List Item) {N : ℕ} (hN : 1 ≤ N) :
    joinPages pages 1 N = pages 1 ++ joinPages pages 2 (N - 1) := by
  cases N with
  | zero => omega
  | succ m => simp [joinPages]

theorem getList_numeric {sv : GLServer} {N : ℕ} {pages : ℕ → List Item} {tok : String}
    (hsv : NumericLastServer sv N pages tok) (hN : 1 ≤ N) (item : Option String)
    (pp maxB : ℕ) (hB : 1 ≤ maxB) :
    getList sv item pp maxB (N + 1) =
      some (.ok (glMerge item (emptyAcc item) (joinPages pages 1 N))) := by
  rcases Nat.lt_or_ge N 2 with h1 | h2
  · have hN1 : N = 1 := by omega
    subst hN1
    rw [getList, glInit_numeric_one hsv]
    simp [joinPages]
  · rw [getList, glInit_numeric_loop hsv h2]
    show glLoop sv item pp maxB (N + 1)
      ⟨glMerge item (emptyAcc item) (pages 1), 2, .str tok, true, none, [],
        (sv.byPage 1 0).headers⟩ =
      some (.ok (glMerge item (emptyAcc item) (joinPages pages 1 N)))
    rw [glLoop_numeric hsv item pp maxB hB _ (N + 1) 2 _ (by omega) (by omega) (by omega)]
    rw [glMerge_append]
    have h21 : N + 1 - 2 = N - 1 := by omega
    rw [h21, joinPages_one pages hN]

theorem alookup_cons {κ : Type} {β : Type} [DecidableEq κ] (a : κ) (b : β)
    (rest : List (κ × β)) (k0 : κ) :
    alookup ((a, b) :: rest) k0 = if a = k0 then some b else alookup rest k0 := rfl

theorem alookup_append {κ : Type} {β : Type} [DecidableEq κ]
    (l1 l2 : List (κ × β)) (k : κ) :
    alookup (l1 ++ l2) k = (alookup l1 k).or (alookup l2 k) := by
  induction l1 with
  | nil => simp [alookup]
  | cons p rest ih =>
    obtain ⟨a, b⟩ := p
    rw [List.cons_append, alookup_cons, alookup_cons]
    by_cases ha : a = k
    · simp [ha]
    · simp [ha, ih]

theorem alookup_map_set {κ : Type} {β : Type} [DecidableEq κ]
    (l : List (κ × β)) (k : κ) (v : β) (k2 : κ) :
    alookup (l.map (fun p => if p.1 = k then (k, v) else p)) k2 =
      if k = k2 then (alookup l k).map (fun _ => v) else alookup l k2 := by
  induction l with
  | nil => simp [alookup]
  | cons p rest ih =>
    obtain ⟨a, b⟩ := p
    by_cases ha : a = k <;> by_cases hak : a = k2 <;> by_cases hkk : k = k2 <;>
      simp_all [alookup_cons]

theorem alookup_aset {κ : Type} {β : Type} [DecidableEq κ]
    (l : List (κ × β)) (k : κ) (v : β) (k2 : κ) :
    alookup (aset l k v) k2 = if k = k2 then some v else alookup l k2 := by
  unfold aset
  by_cases hs : (alookup l k).isSome
  · rw [if_pos hs, alookup_map_set]
    by_cases hk : k = k2
    · obtain ⟨w, hw⟩ := Option.isSome_iff_exists.mp hs
      subst hk
      rw [if_pos rfl, if_pos rfl, hw]
      rfl
    · rw [if_neg hk, if_neg hk]
  · rw [if_neg hs, alookup_append]
    by_cases hk : k = k2
    · subst hk
      have hnone : alookup l k = none := by
        cases h : alookup l k with
        | none => rfl
        | some w => rw [h] at hs; simp at hs
      rw [hnone, alookup_cons, if_pos rfl, if_pos rfl, Option.none_or]
    · rw [if_neg hk, alookup_cons, if_neg hk]
      show (alookup l k2).or (alookup [] k2) = alookup l k2
      rw [show alookup ([] : List (κ × β)) k2 = none from rfl, Option.or_none]

theorem alookup_aset_self {κ : Type} {β : Type} [DecidableEq κ]
    (l : List (κ × β)) (k : κ) (v : β) :
    alookup (aset l k v) k = some v := by
  rw [alookup_aset, if_pos rfl]

theorem alookup_aset_ne {κ : Type} {β : Type} [DecidableEq κ]
    (l : List (κ × β)) (k k2 : κ) (v : β) (hne : k ≠ k2) :
    alookup (aset l k v) k2 = alookup l k2 := by
  rw [alookup_aset, if_neg hne]

theorem lGet_aset_self {κ : Type} [DecidableEq κ] (l : List (κ × ℕ)) (k : κ) (v : ℕ) :
    lGet (aset l k v) k = v := by
  simp [lGet, alookup_aset_self]

theorem alookup_foldl_tblStep (fname : String) :
    ∀ (rs : List Item) (m : List (ℤ × JLit)) (i : ℤ),
      alookup (rs.foldl (tblStep fname) m) i =
        (match (rs.filter (fun r =>
            jlitTruthyOpt (alookup r.fields fname) && idTruthy r.id &&
              decide (r.id = some i))).getLast? with
         | some r => alookup r.fields fname
         | none => alookup m i) := by
  intro rs
  induction rs using List.reverseRecOn with
  | nil => intro m i; simp
  | append_singleton rs r ih =>
    intro m i
    rw [List.foldl_append, List.filter_append, List.getLast?_append]
    simp only [List.foldl_cons, List.foldl_nil]
    by_cases htbl : (jlitTruthyOpt (alookup r.fields fname) && idTruthy r.id) = true
    · obtain ⟨w, hw⟩ : ∃ w, alookup r.fields fname = some w := by
        cases h : alookup r.fields fname with
        | none =>
          rw [Bool.and_eq_true] at htbl
          rw [h] at htbl
          simp [jlitTruthyOpt] at htbl
        | some w => exact ⟨w, rfl⟩
      obtain ⟨j, hj⟩ : ∃ j, r.id = some j := by
        cases h : r.id with
        | none =>
          rw [Bool.and_eq_true] at htbl
          rw [h] at htbl
          simp [idTruthy] at htbl
        | some j => exact ⟨j, rfl⟩
      rw [tblStep, if_pos htbl]
      by_cases hid : j = i
      · subst hid
        have hfu : (jlitTruthyOpt (alookup r.fields fname) && idTruthy r.id &&
            decide (r.id = some j)) = true := by
          rw [Bool.and_eq_true]
          exact ⟨htbl, by rw [hj]; simp⟩
        rw [List.filter_singleton, hfu, Bool.cond_true, List.getLast?_singleton,
          Option.or_some]
        rw [hj]
        simp only [Option.getD_some]
        rw [alookup_aset_self, hw]
        rfl
      · have hfu : (jlitTruthyOpt (alookup r.fields fname) && idTruthy r.id &&
            decide (r.id = some i)) = false := by
          rw [hj]
          simp [hid]
        rw [List.filter_singleton, hfu, Bool.cond_false, List.getLast?_nil,
          Option.none_or]
        rw [hj]
        simp only [Option.getD_some]
        rw [alookup_aset_ne _ _ _ _ hid, ih]
    · have hfu : (jlitTruthyOpt (alookup r.fields fname) && idTruthy r.id &&
          decide (r.id = some i)) = false := by
        rw [Bool.eq_false_iff]
        intro hcon
        rw [Bool.and_eq_true] at hcon
        exact htbl hcon.1
      rw [tblStep, if_neg htbl]
      rw [List.filter_singleton, hfu, Bool.cond_false, List.getLast?_nil,
        Option.none_or]
      exact ih m i

theorem alookup_extractTable (fname : String) (rs : List Item) (i : ℤ) :
    alookup (extractTable fname rs) i = lastFieldWrite fname rs i := by
  rw [extractTable, alookup_foldl_tblStep]
  unfold lastFieldWrite
  cases hL : (rs.filter (fun r =>
      jlitTruthyOpt (alookup r.fields fname) && idTruthy r.id &&
        decide (r.id = some i))).getLast? with
  | none => simp [alookup]
  | some r => simp

theorem processRequestAux_rl_step {κ : Type} [DecidableEq κ] (resp : ℕ → Response) (k : κ)
    (a f : ℕ) (led : List (κ × ℕ))
    (h403 : (resp a).status = some 403) (hrl : isRateLimitError (resp a) = true) :
    processRequestAux resp k a (f + 1) led =
      if lGet led k + 1 ≤ 5 then
        ⟨(processRequestAux resp k (a + 1) f (aset led k (lGet led k + 1))).result,
         (processRequestAux resp k (a + 1) f (aset led k (lGet led k + 1))).ledger,
         (processRequestAux resp k (a + 1) f (aset led k (lGet led k + 1))).attempts + 1,
         calculateRetryDelay (resp a).headers ::
           (processRequestAux resp k (a + 1) f (aset led k (lGet led k + 1))).delays⟩
      else ⟨none, aset led k (lGet led k + 1), 1, []⟩ := by
  rw [processRequestAux]
  simp [h403, hrl]

theorem processRequestAux_allRL {κ : Type} [DecidableEq κ] (resp : ℕ → Response) (k : κ) :
    ∀ (fuel a : ℕ) (led : List (κ × ℕ)),
      (∀ i, (resp i).status = some 403 ∧ isRateLimitError (resp i) = true) →
      lGet led k + fuel = 6 →
      (processRequestAux resp k a fuel led).result = none ∧
      lGet (processRequestAux resp k a fuel led).ledger k = 6 ∧
      (processRequestAux resp k a fuel led).attempts = fuel ∧
      (processRequestAux resp k a fuel led).delays =
        (List.range' a (fuel - 1)).map (fun i => calculateRetryDelay (resp i).headers) := by
  intro fuel
  induction fuel with
  | zero =>
    intro a led h hc
    refine ⟨rfl, ?_, rfl, rfl⟩
    simpa using hc
  | succ f ih =>
    intro a led h hc
    rw [processRequestAux_rl_step resp k a f led (h a).1 (h a).2]
    have hset : lGet (aset led k (lGet led k + 1)) k = lGet led k + 1 := lGet_aset_self _ _ _
    by_cases hretry : lGet led k + 1 ≤ 5
    · rw [if_pos hretry]
      have hf1 : 1 ≤ f := by omega
      have hrec := ih (a + 1) (aset led k (lGet led k + 1)) h (by rw [hset]; omega)
      refine ⟨hrec.1, hrec.2.1, by rw [hrec.2.2.1], ?_⟩
      dsimp only
      rw [hrec.2.2.2]
      have hfr : f + 1 - 1 = (f - 1) + 1 := by omega
      rw [hfr, List.range'_succ, List.map_cons]
    · rw [if_neg hretry]
      have hf0 : f = 0 := by omega
      subst hf0
      exact ⟨rfl, by dsimp only; rw [hset]; omega, rfl, by simp⟩

theorem processRequestAux_success {κ : Type} [DecidableEq κ] (resp : ℕ → Response) (k : κ) :
    ∀ (j fuel a : ℕ) (led : List (κ × ℕ)),
      (∀ i, i < j → (resp (a + i)).status = some 403 ∧ isRateLimitError (resp (a + i)) = true) →
      ¬(resp (a + j)).status = some 403 →
      lGet led k + j ≤ 5 →
      j < fuel →
      (processRequestAux resp k a fuel led).result = some (resp (a + j)) ∧
      lGet (processRequestAux resp k a fuel led).ledger k = lGet led k + j ∧
      (processRequestAux resp k a fuel led).attempts = j + 1 ∧
      (processRequestAux resp k a fuel led).delays =
        (List.range' a j).map (fun i => calculateRetryDelay (resp i).headers) := by
  intro j
  induction j with
  | zero =>
    intro fuel a led h hs hc hf
    cases fuel with
    | zero => omega
    | succ f =>
      rw [processRequestAux_not403 resp k a f led (by simpa using hs)]
      exact ⟨by simp, by simp, rfl, rfl⟩
  | succ j ih =>
    intro fuel a led h hs hc hf
    cases fuel with
    | zero => omega
    | succ f =>
      have h0 := h 0 (by omega)
      simp only [Nat.add_zero] at h0
      rw [processRequestAux_rl_step resp k a f led h0.1 h0.2]
      rw [if_pos (by omega : lGet led k + 1 ≤ 5)]
      have hshift : ∀ i, i < j →
          (resp (a + 1 + i)).status = some 403 ∧ isRateLimitError (resp (a + 1 + i)) = true := by
        intro i hi
        have := h (i + 1) (by omega)
        rwa [show a + (i + 1) = a + 1 + i by omega] at this
      have hs2 : ¬(resp (a + 1 + j)).status = some 403 := by
        rwa [show a + 1 + j = a + (j + 1) by omega]
      have hset : lGet (aset led k (lGet led k + 1)) k = lGet led k + 1 := lGet_aset_self _ _ _
      have hrec := ih f (a + 1) (aset led k (lGet led k + 1)) hshift hs2
        (by rw [hset]; omega) (by omega)
      refine ⟨?_, ?_, ?_, ?_⟩
      · dsimp only
        rw [hrec.1, show a + 1 + j = a + (j + 1) by omega]
      · dsimp only
        rw [hrec.2.1, hset]
        omega
      · dsimp only
        rw [hrec.2.2.1]
      · dsimp only
        rw [hrec.2.2.2, List.range'_succ, List.map_cons]

theorem processRequestAux_attempts_le {κ : Type} [DecidableEq κ] (resp : ℕ → Response) (k : κ) :
    ∀ (fuel a : ℕ) (led : List (κ × ℕ)),
      (processRequestAux resp k a fuel led).attempts ≤ fuel := by
  intro fuel
  induction fuel with
  | zero => intro a led; exact Nat.le_refl 0
  | succ f ih =>
    intro a led
    by_cases h403 : (resp a).status = some 403
    · by_cases hrl : isRateLimitError (resp a) = true
      · rw [processRequestAux_rl_step resp k a f led h403 hrl]
        by_cases hretry : lGet led k + 1 ≤ 5
        · rw [if_pos hretry]
          dsimp only
          have := ih (a + 1) (aset led k (lGet led k + 1))
          omega
        · rw [if_neg hretry]
          dsimp only
          omega
      · rw [processRequestAux]
        rw [if_pos h403, if_neg hrl]
        dsimp only
        omega
    · rw [processRequestAux_not403 resp k a f led h403]
      dsimp only
      omega

theorem hcr_eq_go {κ : Type} [DecidableEq κ] (resp : κ → ℕ → Response) (configs : List κ) :
    handleConcurrentRequests resp configs = hcrGo resp configs [] := by
  suffices h : ∀ (l : List κ) (acc : List (Option Response)) (led : List (κ × ℕ)),
      l.foldl (fun acc config =>
        let o := processRequest (resp config) config acc.2
        (acc.1 ++ [o.result], o.ledger)) (acc, led) =
      (acc ++ (hcrGo resp l led).1, (hcrGo resp l led).2) by
    have h2 := h configs [] []
    rw [handleConcurrentRequests, h2]
    simp
  intro l
  induction l with
  | nil => intro acc led; simp [hcrGo]
  | cons c cs ih =>
    intro acc led
    rw [List.foldl_cons, hcrGo]
    simp only
    rw [ih]
    simp

theorem hcrGo_length {κ : Type} [DecidableEq κ] (resp : κ → ℕ → Response) :
    ∀ (l : List κ) (led : List (κ × ℕ)), (hcrGo resp l led).1.length = l.length := by
  intro l
  induction l with
  | nil => intro led; rfl
  | cons c cs ih =>
    intro led
    rw [hcrGo]
    simp only [List.length_cons]
    rw [ih]

theorem hcrGo_ledger {κ : Type} [DecidableEq κ] (resp : κ → ℕ → Response) :
    ∀ (l : List κ) (led : List (κ × ℕ)), (hcrGo resp l led).2 = hcrLedgerAt resp led l := by
  intro l
  induction l with
  | nil => intro led; rfl
  | cons c cs ih =>
    intro led
    rw [hcrGo]
    simp only
    rw [ih]
    show hcrLedgerAt resp (processRequest (resp c) c led).ledger cs =
      hcrLedgerAt resp led (c :: cs)
    unfold hcrLedgerAt
    rw [List.foldl_cons]

theorem hcrGo_getElem {κ : Type} [DecidableEq κ] (resp : κ → ℕ → Response) :
    ∀ (l : List κ) (led : List (κ × ℕ)) (i : ℕ) (hi : i < l.length),
      (hcrGo resp l led).1[i]? =
        some (processRequest (resp (l.get ⟨i, hi⟩)) (l.get ⟨i, hi⟩)
          (hcrLedgerAt resp led (l.take i))).result := by
  intro l
  induction l with
  | nil => intro led i hi; simp at hi
  | cons c cs ih =>
    intro led i hi
    rw [hcrGo]
    simp only
    cases i with
    | zero =>
      rw [List.getElem?_cons_zero]
      rfl
    | succ i =>
      rw [List.getElem?_cons_succ]
      have hlen : i < cs.length := by simpa using hi
      rw [ih (processRequest (resp c) c led).ledger i hlen]
      show _ = some (processRequest (resp (cs.get ⟨i, hlen⟩)) (cs.get ⟨i, hlen⟩)
        (hcrLedgerAt resp led (c :: cs.take i))).result
      have hled : hcrLedgerAt resp led (c :: cs.take i) =
          hcrLedgerAt resp (processRequest (resp c) c led).ledger (cs.take i) := by
        unfold hcrLedgerAt
        rw [List.foldl_cons]
      rw [hled]

theorem procOne_bookmark_isSome (item : Option String) (pp pv : ℕ) (ihh : Headers)
    (q : GLQuad) (x : Option Response) (h : q.nextbookmarkURL.isSome = true) :
    ∀ q2, procOne item pp pv ihh q x = .ok q2 → q2.nextbookmarkURL.isSome = true := by
  intro q2 he
  unfold procOne at he
  dsimp only at he
  repeat' split at he
  all_goals (try cases he)
  all_goals simp_all

theorem procAll_bookmark_isSome (item : Option String) (pp pv : ℕ) (ihh : Headers) :
    ∀ (rs : List (Option Response)) (q : GLQuad), q.nextbookmarkURL.isSome = true →
      ∀ q2, procAll item pp pv ihh q rs = .ok q2 → q2.nextbookmarkURL.isSome = true := by
  intro rs
  induction rs with
  | nil =>
    intro q hq q2 he
    cases he
    exact hq
  | cons r rest ih =>
    intro q hq q2 he
    cases hstep : procOne item pp pv ihh q r with
    | error e =>
      rw [procAll, List.foldlM] at he
      rw [hstep] at he
      exact absurd he (by simp [Bind.bind, Except.bind])
    | ok q1 =>
      rw [procAll, List.foldlM] at he
      rw [hstep] at he
      have h1 := procOne_bookmark_isSome item pp pv ihh q r hq q1 hstep
      exact ih q1 h1 q2 he

theorem glStep_bookmark_isSome (sv : GLServer) (item : Option String) (pp maxB : ℕ)
    (st st2 : GLState) (h : st.nextbookmarkURL.isSome = true)
    (he : glStep sv item pp maxB st = .ok st2) :
    st2.nextbookmarkURL.isSome = true := by
  unfold glStep at he
  dsimp only at he
  split at he
  · exact absurd he (by simp)
  · cases he
    next q heq =>
      exact procAll_bookmark_isSome item pp _ st.initialHeaders _ _ h q heq

theorem glReach_bookmark (sv : GLServer) (item : Option String) (pp maxB : ℕ)
    (st st2 : GLState) (hr : glReach sv item pp maxB st st2)
    (h : st.nextbookmarkURL.isSome = true) :
    st2.nextbookmarkURL.isSome = true := by
  induction hr with
  | refl => exact h
  | tail hab hstep ih => exact glStep_bookmark_isSome sv item pp maxB _ _ ih hstep

theorem glLoop_hang : ∀ fuel, glLoop hangServer none 1 1 fuel hangState = none := by
  intro fuel
  induction fuel with
  | zero => rfl
  | succ n ih =>
    have hstep : glStep hangServer none 1 1 hangState = .ok hangState := by rfl
    have hguard : glGuard hangState = true := by rfl
    simp only [glLoop, hguard, hstep, if_true]
    exact ih

theorem getList_hang : GetListDiverges hangServer none 1 1 := by
  intro fuel
  have hinit : glInit hangServer none 1 =
      .ok (.loop ⟨.list [itemOfId 1], 2, .str "2", true, none, [],
        ⟨some ⟨some ⟨"L", some "2"⟩, none, none⟩, none, none⟩⟩) := by rfl
  rw [getList, hinit]
  cases fuel with
  | zero => rfl
  | succ n =>
    have hstep : glStep hangServer none 1 1
        ⟨.list [itemOfId 1], 2, .str "2", true, none, [],
          ⟨some ⟨some ⟨"L", some "2"⟩, none, none⟩, none, none⟩⟩ = .ok hangState := by rfl
    simp only [glLoop, hstep]
    rw [if_pos (by rfl)]
    exact glLoop_hang n

/-! ## The claims -/

/-- C1: on every 403 response whose body contains the literal substring
`Rate Limit Exceeded`, `processRequest` increments the ledger entry for the
URL by exactly one per such attempt, waits the computed backoff delay and
resubmits the same config while the new count is at most 5, resolves to
`null` (no exception) once the count exceeds 5 — so an all-rate-limited
stream is submitted 6 times (5 resubmissions), ends with ledger count 6 and
result `none`; a stream that stops being rate limited at attempt `j ≤ 5`
resolves to that response after `j` resubmissions; and the number of
resubmissions never exceeds 5 for any stream and any starting ledger. -/
theorem claim1_rate_limit_retry {κ : Type} [DecidableEq κ] (resp : ℕ → Response) (k : κ) :
    ((∀ i, (resp i).status = some 403 ∧ isRateLimitError (resp i) = true) →
      (processRequest resp k []).result = none ∧
      lGet (processRequest resp k []).ledger k = 6 ∧
      (processRequest resp k []).attempts = 6 ∧
      (processRequest resp k []).delays =
        (List.range' 0 5).map (fun i => calculateRetryDelay (resp i).headers)) ∧
    (∀ j, j ≤ 5 →
      (∀ i, i < j → (resp i).status = some 403 ∧ isRateLimitError (resp i) = true) →
      ¬(resp j).status = some 403 →
      (processRequest resp k []).result = some (resp j) ∧
      lGet (processRequest resp k []).ledger k = j ∧
      (processRequest resp k []).attempts = j + 1 ∧
      (processRequest resp k []).delays =
        (List.range' 0 j).map (fun i => calculateRetryDelay (resp i).headers)) ∧
    (∀ led : List (κ × ℕ), (processRequest resp k led).attempts - 1 ≤ 5) := by
  have h0 : lGet ([] : List (κ × ℕ)) k = 0 := rfl
  refine ⟨?_, ?_, ?_⟩
  · intro h
    exact processRequestAux_allRL resp k 6 0 [] h (by rw [h0])
  · intro j hj h hs
    have hr := processRequestAux_success resp k j 6 0 []
      (fun i hi => by simpa using h i hi) (by simpa using hs) (by omega) (by omega)
    refine ⟨by simpa using hr.1, ?_, hr.2.2.1, hr.2.2.2⟩
    show lGet (processRequestAux resp k 0 6 []).ledger k = j
    rw [hr.2.1, h0]
    omega
  · intro led
    have h1 := processRequestAux_attempts_le resp k 6 0 led
    have h2 : (processRequest resp k led).attempts =
      (processRequestAux resp k 0 6 led).attempts := rfl
    omega

/-- Witness for C1 at concrete streams: one always rate limited, one rate
limited twice before succeeding. -/
theorem claim1_witness :
    ((processRequest c1StreamAll "u" ([] : List (String × ℕ))).result = none ∧
      lGet (processRequest c1StreamAll "u" []).ledger "u" = 6 ∧
      (processRequest c1StreamAll "u" []).attempts = 6 ∧
      (processRequest c1StreamAll "u" []).delays =
        (List.range' 0 5).map (fun i => calculateRetryDelay (c1StreamAll i).headers)) ∧
    ((processRequest c1StreamMix "u" ([] : List (String × ℕ))).result = some (c1StreamMix 2) ∧
      lGet (processRequest c1StreamMix "u" []).ledger "u" = 2 ∧
      (processRequest c1StreamMix "u" []).attempts = 3 ∧
      (processRequest c1StreamMix "u" []).delays =
        (List.range' 0 2).map (fun i => calculateRetryDelay (c1StreamMix i).headers)) := by
  have hRL : isRateLimitError c1RL = true := by decide
  constructor
  · exact (claim1_rate_limit_retry c1StreamAll "u").1 (fun i => ⟨rfl, hRL⟩)
  · exact (claim1_rate_limit_retry c1StreamMix "u").2.1 2 (by omega)
      (fun i hi => by
        have hmix : c1StreamMix i = c1RL := by simp [c1StreamMix, hi]
        rw [hmix]
        exact ⟨rfl, hRL⟩)
      (by decide)

/-- C2 counterexample: with both headers present, `remaining = 1 > 0` and
`cost = 0`, the source returns the default 1000 ms, not the claimed
formula value `ceil((300/1)*500*0) = 0` (a cost of `0` is falsy, so the
formula branch is skipped). -/
theorem claim2_counterexample :
    calculateRetryDelay ⟨none, some 1, some 0⟩ = 1000 ∧
    Int.ceil ((300 / ((1 : ℤ) : ℚ)) * 500 * ((0 : ℤ) : ℚ)) = 0 ∧
    (1000 : ℤ) ≠ 0 := by
  refine ⟨rfl, ?_, by decide⟩
  rw [show (300 / ((1 : ℤ) : ℚ)) * 500 * ((0 : ℤ) : ℚ) = 0 by norm_num]
  exact Int.ceil_zero

/-- C2 (amended): `calculateRetryDelay` returns `abs(R) * 150` when the
`x-rate-limit-remaining` header R is negative; `ceil((300/R)*500*C)` when
R and the `x-request-cost` header C are both present, R is positive and C
is nonzero; and 1000 in every other case (in particular when R = 0, when
C = 0, or when either header is missing). -/
theorem claim2_amended :
    (∀ (h : Headers) (n : ℤ), h.xRateLimitRemaining = some n → n < 0 →
      calculateRetryDelay h = |n| * 150) ∧
    (∀ (h : Headers) (n c : ℤ), h.xRateLimitRemaining = some n → h.xRequestCost = some c →
      0 < n → c ≠ 0 →
      calculateRetryDelay h = Int.ceil ((300 / (n : ℚ)) * 500 * (c : ℚ))) ∧
    (∀ h : Headers,
      (∀ n : ℤ, h.xRateLimitRemaining = some n → 0 ≤ n) →
      (¬∃ n c : ℤ, h.xRateLimitRemaining = some n ∧ h.xRequestCost = some c ∧
        0 < n ∧ c ≠ 0) →
      calculateRetryDelay h = 1000) := by
  refine ⟨?_, ?_, ?_⟩
  · intro h n hrem hneg
    unfold calculateRetryDelay
    rw [hrem]
    simp [optLtZero, optAbs, hneg]
  · intro h n c hrem hcost hpos hc0
    unfold calculateRetryDelay
    rw [hrem, hcost]
    have hnlt : optLtZero (some n) = false := by
      simp [optLtZero]
      omega
    have hn0 : n ≠ 0 := by omega
    simp [hnlt, optTruthy, hn0, hc0]
  · intro h hge hno
    unfold calculateRetryDelay
    have hnlt : optLtZero h.xRateLimitRemaining = false := by
      cases hr : h.xRateLimitRemaining with
      | none => rfl
      | some n =>
        have := hge n hr
        simp [optLtZero]
        omega
    have hand : (optTruthy h.xRateLimitRemaining && optTruthy h.xRequestCost) = false := by
      cases hr : h.xRateLimitRemaining with
      | none => simp [optTruthy]
      | some n =>
        cases hc : h.xRequestCost with
        | none => simp [optTruthy]
        | some c =>
          by_cases hn0 : n = 0
          · simp [optTruthy, hn0]
          · by_cases hc0 : c = 0
            · simp [optTruthy, hc0]
            · exfalso
              apply hno
              refine ⟨n, c, hr, hc, ?_, hc0⟩
              have := hge n hr
              omega
    simp only [hnlt, hand, Bool.false_eq_true, if_false]

/-- Witness for C2 at concrete headers in each branch. -/
theorem claim2_witness :
    calculateRetryDelay ⟨none, some (-2), none⟩ = |(-2 : ℤ)| * 150 ∧
    calculateRetryDelay ⟨none, some 300, some 1⟩ =
      Int.ceil ((300 / ((300 : ℤ) : ℚ)) * 500 * ((1 : ℤ) : ℚ)) ∧
    calculateRetryDelay ⟨none, some 0, some 1⟩ = 1000 := by
  refine ⟨?_, ?_, ?_⟩
  · exact claim2_amended.1 ⟨none, some (-2), none⟩ (-2) rfl (by decide)
  · exact claim2_amended.2.1 ⟨none, some 300, some 1⟩ 300 1 rfl rfl (by decide) (by decide)
  · refine claim2_amended.2.2 ⟨none, some 0, some 1⟩ ?_ ?_
    · intro n hn
      cases hn
      decide
    · rintro ⟨n, c, hn, hc, hpos, hc0⟩
      cases hn
      omega

/-- C3 counterexample: on a two-page resource whose page-2 request is rate
limited once and then succeeds — so every request eventually succeeds —
`getList` never returns at all (the ledger entry recorded for the retried
URL is never cleared and keeps the loop guard true forever), contradicting
the claim that it returns the union of the pages. -/
theorem claim3_counterexample :
    (processRequest (hangServer.byPage 2) (GUrl.pageU 2 1) ([] : List (GUrl × ℕ))).result =
      some hangPage2 ∧
    GetListDiverges hangServer none 1 1 :=
  ⟨rfl, getList_hang⟩

/-- C3 (amended): for every numerically paginated resource with `N` total
pages that advertises its page count through a `rel=last` link, whose
requests all succeed on the first attempt (none is ever rate limited),
`getList` returns exactly the concatenation of all `N` pages' items — no
duplicates and no omissions — for every `maxBatchSize` between 1 and `N`. -/
theorem claim3_amended (sv : GLServer) (N : ℕ) (pages : ℕ → List Item) (tok : String)
    (hsv : NumericLastServer sv N pages tok) (hN : 1 ≤ N) (perPage maxB : ℕ)
    (hB : 1 ≤ maxB) (_hBN : maxB ≤ N) :
    getList sv none perPage maxB (N + 1) = some (.ok (.list (joinPages pages 1 N))) := by
  have h := getList_numeric hsv hN none perPage maxB hB
  rw [h]
  simp [emptyAcc, glMerge]

/-- Witness for C3 on a concrete three-page resource with batch size 2. -/
theorem claim3_witness :
    getList c3Server none 2 2 4 = some (.ok (.list (joinPages c3Pages 1 3))) :=
  claim3_amended c3Server 3 c3Pages "3"
    ⟨by decide, fun p _ _ => rfl, fun p _ _ => rfl,
     fun p _ _ => ⟨⟨some ⟨"L", some "3"⟩, none, none⟩, "L", rfl, rfl⟩⟩
    (by omega) 2 2 (by omega) (by omega)

/-- C4 (code bug): on a two-page resource whose page-2 request is rate
limited once and then succeeds, the loop state reached after both pages
are fetched has its page counter past `totalPages` and its only retry
resolved, yet the guard `page <= totalPages || Object.keys(retryCounts).length > 0`
stays true because the ledger entry is never removed: the iteration maps
that state to itself and the call never returns. -/
theorem claim4_loop_never_exits :
    glStep hangServer none 1 1 hangState = .ok hangState ∧
    glGuard hangState = true ∧
    jle hangState.page hangState.totalPages = false ∧
    hangState.ledger ≠ [] ∧
    GetListDiverges hangServer none 1 1 :=
  ⟨rfl, rfl, rfl, by decide, getList_hang⟩

/-- C5 (code bug): with no `rel=last` link and a numeric `rel=next` page
token `2`, `getList` seeds `totalPages = nextPage + 1` where `nextPage` is
the string `2`, so JavaScript string concatenation yields `21` (numeric
value 21), not the claimed `2 + 1 = 3`. -/
theorem claim5_seed_concat :
    seedOf (glInit c5Server none 100) = .str "21" ∧
    jvalToNum (.str "21") = some 21 ∧
    jvalToNum (.str "21") ≠ some (2 + 1) :=
  ⟨rfl, rfl, by decide⟩

/-- C6: once the loop state holds a bookmark cursor, every state reachable
by further loop iterations still holds a bookmark cursor, and the batch it
builds is exactly one request for the stored cursor URL, regardless of
`maxBatchSize` — numeric speculative fetching is never re-attempted. -/
theorem claim6_cursor_mode_invariant (sv : GLServer) (item : Option String)
    (perPage maxB : ℕ) (st st2 : GLState) (pu : PageUrl)
    (h : st.nextbookmarkURL = some pu) (hr : glReach sv item perPage maxB st st2) :
    ∃ pu2, st2.nextbookmarkURL = some pu2 ∧
      glBuildBatch maxB perPage st2 = ([GUrl.rawU pu2.url], st2.page + 1) := by
  have h2 : st2.nextbookmarkURL.isSome = true :=
    glReach_bookmark sv item perPage maxB st st2 hr (by rw [h]; rfl)
  obtain ⟨pu2, hpu2⟩ := Option.isSome_iff_exists.mp h2
  refine ⟨pu2, hpu2, ?_⟩
  unfold glBuildBatch
  rw [hpu2]

/-- Witness for C6 at a concrete bookmark-mode state. -/
theorem claim6_witness :
    ∃ pu2, c6State.nextbookmarkURL = some pu2 ∧
      glBuildBatch 40 100 c6State = ([GUrl.rawU pu2.url], c6State.page + 1) :=
  claim6_cursor_mode_invariant trivServer none 100 40 c6State c6State
    ⟨"bk", some "bookmark:x"⟩ rfl Relation.ReflTransGen.refl

/-- C7 (code bug): a request that resolves to `null` (here, a non-rate-limit
403) makes `getAllResultsFromArray` throw a `TypeError` — line 472 reads
`result.config.url` inside the template literal before the `result ?`
check — instead of dropping the failure with a logged warning. -/
theorem claim7_null_result_throws :
    getAllResultsFromArray c7Server "c<item>" [7] false 1 1 3 =
      some (.error "TypeError: Cannot read properties of null (reading config)") ∧
    (processRequest (c7Server "c7?per_page=1") "c7?per_page=1"
      ([] : List (String × ℕ))).result = none :=
  ⟨rfl, rfl⟩

/-- C8 (code bug): for keys `[10, 20]` with default `perPage = 100`, every
URL of key 20 contains the substring `10` (inside `per_page=100`), so
`items.find(it => itemUrl.includes(it))` attributes all of key 20's
results to key 10: the returned mapping has no entry for key 20 at all,
and key 10's entry also holds key 20's items. -/
theorem claim8_misattribution :
    getAllResultsFromArray c8Server "c/<item>/x" [10, 20] false 100 40 4 =
      some (.ok [(some 10, AggVal.arr (c8ItemA :: c8PageB1))]) ∧
    alookup [((some 10 : Option ℤ), AggVal.arr (c8ItemA :: c8PageB1))] (some 20) = none ∧
    jsIncludes "c/20/x?per_page=100" (toString (10 : ℤ)) = true :=
  ⟨rfl, rfl, rfl⟩

/-- C9 counterexample: a record whose `name` field is present but equal to
the empty string (falsy) contributes nothing — the result table is empty,
not the claimed mapping from its id to the empty-string value. -/
theorem claim9_counterexample :
    getList c9Server (some "name") 2 1 1 = some (.ok (.table [])) ∧
    GLAcc.table ([] : List (ℤ × JLit)) ≠ .table [(1, .jstr "")] :=
  ⟨rfl, by decide⟩

/-- C9 (amended): in field-extraction mode on a numerically paginated
resource advertising `rel=last`, `getList` returns the id-keyed table
obtained by folding over all pages' records in arrival order, where a
record contributes only when both its id and the requested field value are
truthy, and a later write for the same id overwrites an earlier one (last
write wins), as the lookup characterization states. -/
theorem claim9_amended (sv : GLServer) (N : ℕ) (pages : ℕ → List Item) (tok : String)
    (fname : String) (hsv : NumericLastServer sv N pages tok) (hN : 1 ≤ N)
    (perPage maxB : ℕ) (hB : 1 ≤ maxB) :
    getList sv (some fname) perPage maxB (N + 1) =
      some (.ok (.table (extractTable fname (joinPages pages 1 N)))) ∧
    ∀ i : ℤ, alookup (extractTable fname (joinPages pages 1 N)) i =
      lastFieldWrite fname (joinPages pages 1 N) i := by
  constructor
  · have h := getList_numeric hsv hN (some fname) perPage maxB hB
    rw [h]
    simp [emptyAcc, glMerge, extractTable]
  · intro i
    exact alookup_extractTable fname (joinPages pages 1 N) i

/-- Witness for C9 on the two-page resource with records
`(id 1, name "a")` and `(id 2, name "b")`: the result is the table
mapping 1 to "a" and 2 to "b". -/
theorem claim9_witness :
    (getList c9aServer (some "name") 1 1 3 =
      some (.ok (.table (extractTable "name" (joinPages c9aPages 1 2)))) ∧
     ∀ i : ℤ, alookup (extractTable "name" (joinPages c9aPages 1 2)) i =
       lastFieldWrite "name" (joinPages c9aPages 1 2) i) ∧
    extractTable "name" (joinPages c9aPages 1 2) = [(1, .jstr "a"), (2, .jstr "b")] :=
  ⟨claim9_amended c9aServer 2 c9aPages "2" "name"
    ⟨by decide, fun p _ _ => rfl, fun p _ _ => rfl,
     fun p _ _ => ⟨⟨some ⟨"L", some "2"⟩, none, none⟩, "L", rfl, rfl⟩⟩
    (by omega) 1 1 (by omega), by decide⟩

/-- C10: `handleConcurrentRequests` returns one outcome per config, in
submission order — the i-th outcome is exactly what `processRequest`
yields for the i-th config — and all configs of the call share a single
retry ledger, threaded from the empty ledger through the requests in
order. -/
theorem claim10_order_and_shared_ledger {κ : Type} [DecidableEq κ]
    (resp : κ → ℕ → Response) (requestConfigs : List κ) :
    (handleConcurrentRequests resp requestConfigs).1.length = requestConfigs.length ∧
    (∀ (i : ℕ) (hi : i < requestConfigs.length),
      (handleConcurrentRequests resp requestConfigs).1[i]? =
        some (processRequest (resp (requestConfigs.get ⟨i, hi⟩))
          (requestConfigs.get ⟨i, hi⟩)
          (hcrLedgerAt resp [] (requestConfigs.take i))).result) ∧
    (handleConcurrentRequests resp requestConfigs).2 =
      hcrLedgerAt resp [] requestConfigs := by
  rw [hcr_eq_go]
  exact ⟨hcrGo_length resp _ [], fun i hi => hcrGo_getElem resp _ [] i hi,
    hcrGo_ledger resp _ []⟩

/-- Witness for C10 at two concrete configs. -/
theorem claim10_witness :
    (handleConcurrentRequests c10Resp ["a", "b"]).1.length = 2 ∧
    (handleConcurrentRequests c10Resp ["a", "b"]).1[1]? =
      some (processRequest (c10Resp "b") "b" (hcrLedgerAt c10Resp [] ["a"])).result := by
  refine ⟨(claim10_order_and_shared_ledger c10Resp ["a", "b"]).1, ?_⟩
  exact (claim10_order_and_shared_ledger c10Resp ["a", "b"]).2.1 1 (by decide)

end CMC
